import Mathlib

/-!
Shallow embedding of the two memory-resource variants of the `rmm` repository:
`pinned_memory_resource` (src/include/rmm/mr/device/pinned_memory_resource.hpp)
and `shared_memory_resource` (src/include/rmm/mr/device/shared_memory_resource.hpp).

The OS and CUDA runtime are modelled as oracles: an environment record fixes the
outcome of every underlying call (`shm_open`, `ftruncate`, `mmap`,
`cudaMallocHost`, `cudaHostRegister`, ...), and each member function is a pure
Lean function of that environment which returns its C++ outcome (returned
pointer, thrown exception, or fatal assertion) together with the trace of
underlying calls and log messages it performed, in program order.  The
follower wait loop of `shared_memory_resource::do_allocate`, which can run
forever, is embedded with a fuel parameter: a `none` outcome means the call did
not return within the given fuel, and nontermination is expressed as `none`
for every fuel.
-/

namespace rmm

namespace mr

/-- Result of a CUDA runtime call (`cudaError_t`); only success vs failure is
relevant to the code under study. -/
inductive cudaError_t
  | cudaSuccess
  | cudaErrorOther
  deriving DecidableEq, Repr

/-- Host virtual addresses; the C++ `void *` minus the null pointer.  Nullable
pointers are `Option Addr`, with `none` for `nullptr`. -/
abbrev Addr := Nat

/-- An execution context token (`rmm::cuda_stream_view`).  The code never
inspects it; it is an opaque value. -/
structure cuda_stream_view where
  value : Nat
  deriving DecidableEq, Repr

/-- One underlying OS / device-runtime call or log emission performed by a
member function, recorded in program order. -/
inductive Event
  | shmOpenCreate               -- shm_open("/shm", O_RDWR | O_CREAT, 0666) by rank 0
  | ftruncate                   -- ftruncate(fd, bytes)
  | sleepMs (ms : Nat)          -- std::this_thread::sleep_for
  | shmOpenExisting             -- shm_open("/shm", O_RDWR, 0666) by a follower
  | mmap                        -- mmap(NULL, bytes, PROT_READ | PROT_WRITE, MAP_SHARED, fd, 0)
  | cudaHostRegister            -- cudaHostRegister(p, bytes, cudaHostRegisterPortable)
  | cudaMallocHost              -- cudaMallocHost(&p, bytes)
  | cudaHostUnregister          -- cudaHostUnregister(p)
  | munmap                      -- munmap(p, bytes)
  | shmUnlink                   -- shm_unlink("/shm")
  | cudaFreeHost                -- cudaFreeHost(p)
  | logError (msg : String)     -- RMM_LOG_ERROR(msg)
  deriving DecidableEq, Repr

/-- How a `do_allocate` call ends: it returns a (possibly null) pointer, or it
throws `rmm::bad_alloc` (via `RMM_CUDA_TRY`). -/
inductive AllocOutcome
  | retPtr (p : Option Addr)
  | throwBadAlloc
  deriving DecidableEq, Repr

/-- How a `do_deallocate` call ends: normal completion, or the fatal
`RMM_ASSERT_CUDA_SUCCESS` assertion fires. -/
inductive DeallocOutcome
  | done
  | fatal
  deriving DecidableEq, Repr

/-- How a `do_get_mem_info` call ends: it returns the `(free, total)` pair, or
`RMM_CUDA_TRY` throws `rmm::cuda_error`. -/
inductive MemInfoOutcome
  | ret (free_size total_size : Nat)
  | throwCudaError
  deriving DecidableEq, Repr

/-- Oracle for the underlying calls of `pinned_memory_resource::do_allocate`:
the outcome of `cudaMallocHost` (`none` = failure, `some p` = success writing
address `p`). -/
structure PinnedEnv where
  mallocHost : Option Addr
  deriving DecidableEq, Repr

/-- Oracle for the underlying calls of one `shared_memory_resource::do_allocate`
run. `shmOpenAttempt n` is the return value of the follower loop's n-th
`shm_open` (-1 = failure); `ftruncateRet` is the return value of `ftruncate`
(0 = success, -1 = failure); `mmapRet` is `none` for `MAP_FAILED`. -/
structure SharedEnv where
  shmOpenCreate : Int
  ftruncateRet : Int
  shmOpenAttempt : Nat → Int
  mmapRet : Option Addr
  hostRegister : cudaError_t

/-- Oracle for the underlying calls of `shared_memory_resource::do_deallocate`.
The code discards the return values of `munmap` and `shm_unlink`; they are
still part of the environment so that independence can be stated. -/
structure DeallocEnv where
  hostUnregister : cudaError_t
  munmapRet : Int
  shmUnlinkRet : Int
  deriving DecidableEq, Repr

/-- Oracle for `do_get_mem_info`: the outcome of `cudaMemGetInfo` (`none` =
failure, `some (free, total)` = success). -/
structure MemInfoEnv where
  memGetInfo : Option (Nat × Nat)
  deriving DecidableEq, Repr

/-- Instance state of `pinned_memory_resource`: the class has no data members. -/
structure pinned_memory_resource where
  deriving DecidableEq, Repr

/-- Instance state of `shared_memory_resource`: the `local_rank_` data member. -/
structure shared_memory_resource where
  local_rank_ : Int
  deriving DecidableEq, Repr

/-- A `device_memory_resource` value restricted to the two final classes of the
repository; the closed-hierarchy view a caller holds by base reference. -/
inductive MemoryResource
  | pinned  : pinned_memory_resource → MemoryResource
  | shared  : shared_memory_resource → MemoryResource
  deriving DecidableEq, Repr

namespace pinned_memory_resource

/-- pinned_memory_resource.hpp line 47: `supports_streams` returns `false`. -/
def supports_streams (_self : pinned_memory_resource) : Bool := false

/-- pinned_memory_resource.hpp line 54: `supports_get_mem_info` returns `true`. -/
def supports_get_mem_info (_self : pinned_memory_resource) : Bool := true

/-- pinned_memory_resource.hpp lines 68-76: `do_allocate`.  Returns `nullptr`
for zero bytes without any call; otherwise calls `cudaMallocHost` and throws
`rmm::bad_alloc` on failure (`RMM_CUDA_TRY`). -/
def do_allocate (env : PinnedEnv) (bytes : Nat) (_stream : cuda_stream_view) :
    AllocOutcome × List Event :=
  if bytes = 0 then (AllocOutcome.retPtr none, [])
  else
    match env.mallocHost with
    | some p => (AllocOutcome.retPtr (some p), [Event.cudaMallocHost])
    | none => (AllocOutcome.throwBadAlloc, [Event.cudaMallocHost])

/-- pinned_memory_resource.hpp lines 87-90: `do_deallocate` calls
`cudaFreeHost` under `RMM_ASSERT_CUDA_SUCCESS`. -/
def do_deallocate (freeHost : cudaError_t) (_p : Option Addr)
    (_bytes : Nat) (_stream : cuda_stream_view) : DeallocOutcome × List Event :=
  match freeHost with
  | cudaError_t.cudaSuccess => (DeallocOutcome.done, [Event.cudaFreeHost])
  | cudaError_t.cudaErrorOther => (DeallocOutcome.fatal, [Event.cudaFreeHost])

/-- pinned_memory_resource.hpp lines 104-107: `do_is_equal` is a
`dynamic_cast` test: true iff `other` is a `pinned_memory_resource`. -/
def do_is_equal (_self : pinned_memory_resource) (other : MemoryResource) : Bool :=
  match other with
  | MemoryResource.pinned _ => true
  | MemoryResource.shared _ => false

/-- pinned_memory_resource.hpp lines 117-123: `do_get_mem_info` calls
`cudaMemGetInfo` under `RMM_CUDA_TRY` and returns the pair. -/
def do_get_mem_info (env : MemInfoEnv) (_stream : cuda_stream_view) :
    MemInfoOutcome :=
  match env.memGetInfo with
  | some (f, t) => MemInfoOutcome.ret f t
  | none => MemInfoOutcome.throwCudaError

end pinned_memory_resource

namespace shared_memory_resource

/-- shared_memory_resource.hpp line 54: `supports_streams` returns `false`. -/
def supports_streams (_self : shared_memory_resource) : Bool := false

/-- shared_memory_resource.hpp line 61: `supports_get_mem_info` returns `true`. -/
def supports_get_mem_info (_self : shared_memory_resource) : Bool := true

/-- shared_memory_resource.hpp lines 94-97: the follower wait loop
`while (fd == -1) { sleep_for(100ms); fd = shm_open("/shm", O_RDWR, 0666); }`,
embedded with fuel.  `i` numbers the attempts; the result is the index and
return value of the first successful `shm_open` (`none` if none of the first
`fuel` attempts succeeds), together with the loop's event trace. -/
def waitOpen (attempt : Nat → Int) : Nat → Nat → Option (Nat × Int) × List Event
  | _, 0 => (none, [])
  | i, fuel + 1 =>
    if attempt i = -1 then
      ((waitOpen attempt (i + 1) fuel).1,
        Event.sleepMs 100 :: Event.shmOpenExisting :: (waitOpen attempt (i + 1) fuel).2)
    else
      (some (i, attempt i), [Event.sleepMs 100, Event.shmOpenExisting])

/-- shared_memory_resource.hpp lines 99-106: the common tail of `do_allocate`
once a file descriptor is in hand: `mmap` (log and return `nullptr` on
`MAP_FAILED`), then `cudaHostRegister` under `RMM_CUDA_TRY` with
`rmm::bad_alloc`, then return the mapped address. -/
def mapAndRegister (env : SharedEnv) : AllocOutcome × List Event :=
  match env.mmapRet with
  | none =>
    (AllocOutcome.retPtr none, [Event.mmap, Event.logError "mmap failed"])
  | some p =>
    match env.hostRegister with
    | cudaError_t.cudaSuccess =>
      (AllocOutcome.retPtr (some p), [Event.mmap, Event.cudaHostRegister])
    | cudaError_t.cudaErrorOther =>
      (AllocOutcome.throwBadAlloc, [Event.mmap, Event.cudaHostRegister])

/-- shared_memory_resource.hpp lines 75-107: `do_allocate`, embedded with fuel
for the follower wait loop.  The first component is `none` when the wait loop
did not finish within `fuel` iterations (so `none` for every fuel means the
call never returns).  Note the source's `ftruncate` test is
`if (ftruncate(fd, bytes) == 0)` — the early null return fires when
`ftruncate` returns 0 — which the embedding reproduces verbatim. -/
def do_allocate (env : SharedEnv) (local_rank_ : Int) (bytes : Nat)
    (_stream : cuda_stream_view) (fuel : Nat) : Option AllocOutcome × List Event :=
  if bytes = 0 then (some (AllocOutcome.retPtr none), [])
  else if local_rank_ = 0 then
    if env.shmOpenCreate = -1 then
      (some (AllocOutcome.retPtr none),
        [Event.shmOpenCreate, Event.logError "shm_open failed"])
    else if env.ftruncateRet = 0 then
      (some (AllocOutcome.retPtr none),
        [Event.shmOpenCreate, Event.ftruncate, Event.logError "ftruncate failed"])
    else
      (some (mapAndRegister env).1,
        Event.shmOpenCreate :: Event.ftruncate :: (mapAndRegister env).2)
  else
    match (waitOpen env.shmOpenAttempt 0 fuel).1 with
    | none => (none, (waitOpen env.shmOpenAttempt 0 fuel).2)
    | some _ =>
      (some (mapAndRegister env).1,
        (waitOpen env.shmOpenAttempt 0 fuel).2 ++ (mapAndRegister env).2)

/-- shared_memory_resource.hpp lines 118-123: `do_deallocate`:
`cudaHostUnregister` under the fatal `RMM_ASSERT_CUDA_SUCCESS`, then `munmap`
(result discarded), then `shm_unlink` (result discarded) only when
`local_rank_ == 0`. -/
def do_deallocate (env : DeallocEnv) (local_rank_ : Int) (_p : Option Addr)
    (_bytes : Nat) (_stream : cuda_stream_view) : DeallocOutcome × List Event :=
  match env.hostUnregister with
  | cudaError_t.cudaErrorOther => (DeallocOutcome.fatal, [Event.cudaHostUnregister])
  | cudaError_t.cudaSuccess =>
    if local_rank_ = 0 then
      (DeallocOutcome.done, [Event.cudaHostUnregister, Event.munmap, Event.shmUnlink])
    else
      (DeallocOutcome.done, [Event.cudaHostUnregister, Event.munmap])

/-- shared_memory_resource.hpp lines 137-140: `do_is_equal` is a
`dynamic_cast` test: true iff `other` is a `shared_memory_resource`. -/
def do_is_equal (_self : shared_memory_resource) (other : MemoryResource) : Bool :=
  match other with
  | MemoryResource.pinned _ => false
  | MemoryResource.shared _ => true

/-- shared_memory_resource.hpp lines 150-156: `do_get_mem_info` calls
`cudaMemGetInfo` under `RMM_CUDA_TRY` and returns the pair; the body is
textually identical to the pinned variant's. -/
def do_get_mem_info (env : MemInfoEnv) (_stream : cuda_stream_view) :
    MemInfoOutcome :=
  match env.memGetInfo with
  | some (f, t) => MemInfoOutcome.ret f t
  | none => MemInfoOutcome.throwCudaError

end shared_memory_resource

/-- Virtual dispatch of `is_equal` through the base reference: each final class
answers with its own `do_is_equal` override. -/
def is_equal (self other : MemoryResource) : Bool :=
  match self with
  | MemoryResource.pinned p => pinned_memory_resource.do_is_equal p other
  | MemoryResource.shared s => shared_memory_resource.do_is_equal s other

/-- The spec's notion of equality for comparison: two resources are the same
variant kind (pinned with pinned, shared with shared). -/
def sameVariant : MemoryResource → MemoryResource → Bool
  | MemoryResource.pinned _, MemoryResource.pinned _ => true
  | MemoryResource.shared _, MemoryResource.shared _ => true
  | _, _ => false

/-! Helper lemmas about the follower wait loop and the map-and-register tail. -/

/-- Every event the wait loop emits is a 100 ms sleep or a follower
`shm_open`; in particular the loop never creates or sizes the segment. -/
theorem waitOpen_trace_events (attempt : Nat → Int) :
    ∀ (fuel i : Nat) (e : mr.Event),
      e ∈ (mr.shared_memory_resource.waitOpen attempt i fuel).2 →
        e = mr.Event.sleepMs 100 ∨ e = mr.Event.shmOpenExisting := by
  intro fuel
  induction fuel with
  | zero =>
    intro i e he
    simp [mr.shared_memory_resource.waitOpen] at he
  | succ f ih =>
    intro i e he
    by_cases h : attempt i = -1
    · simp only [mr.shared_memory_resource.waitOpen, if_pos h, List.mem_cons] at he
      rcases he with h1 | h2 | h3
      · exact Or.inl h1
      · exact Or.inr h2
      · exact ih (i + 1) e h3
    · simp only [mr.shared_memory_resource.waitOpen, if_neg h, List.mem_cons,
        List.mem_singleton] at he
      rcases he with h1 | h2 | h3
      · exact Or.inl h1
      · exact Or.inr h2
      · exact absurd h3 (List.not_mem_nil e)

/-- If no `shm_open` attempt ever succeeds, the wait loop yields no file
descriptor for any amount of fuel. -/
theorem waitOpen_never (attempt : Nat → Int) (h : ∀ n, attempt n = -1) :
    ∀ (fuel i : Nat), (mr.shared_memory_resource.waitOpen attempt i fuel).1 = none := by
  intro fuel
  induction fuel with
  | zero => intro i; rfl
  | succ f ih =>
    intro i
    simp only [mr.shared_memory_resource.waitOpen, if_pos (h i)]
    exact ih (i + 1)

/-- The event trace of `n` wait-loop iterations: each iteration sleeps 100 ms
and then attempts `shm_open` on the existing segment. -/
def followTrace : Nat → List mr.Event
  | 0 => []
  | n + 1 => mr.Event.sleepMs 100 :: mr.Event.shmOpenExisting :: followTrace n

/-- If attempt `i + k` is the first attempt from `i` on that succeeds, the wait
loop with fuel at least `k + 1` returns exactly that descriptor after `k + 1`
sleep-and-open iterations. -/
theorem waitOpen_first_success (attempt : Nat → Int) :
    ∀ (k i fuel : Nat), attempt (i + k) ≠ -1 →
      (∀ j, j < k → attempt (i + j) = -1) → k + 1 ≤ fuel →
      mr.shared_memory_resource.waitOpen attempt i fuel =
        (some (i + k, attempt (i + k)), followTrace (k + 1)) := by
  intro k
  induction k with
  | zero =>
    intro i fuel hk _ hle
    obtain ⟨f, rfl⟩ : ∃ f, fuel = f + 1 := ⟨fuel - 1, by omega⟩
    have hk0 : attempt i ≠ -1 := by simpa using hk
    simp only [mr.shared_memory_resource.waitOpen, if_neg hk0]
    simp [followTrace]
  | succ k ih =>
    intro i fuel hk hlt hle
    obtain ⟨f, rfl⟩ : ∃ f, fuel = f + 1 := ⟨fuel - 1, by omega⟩
    have h0 : attempt i = -1 := by simpa using hlt 0 (Nat.succ_pos k)
    have harg : i + 1 + k = i + (k + 1) := by omega
    have hk2 : attempt (i + 1 + k) ≠ -1 := by rw [harg]; exact hk
    have hlt2 : ∀ j, j < k → attempt (i + 1 + j) = -1 := by
      intro j hj
      have : i + 1 + j = i + (j + 1) := by omega
      rw [this]
      exact hlt (j + 1) (by omega)
    have ihr := ih (i + 1) f hk2 hlt2 (by omega)
    simp only [mr.shared_memory_resource.waitOpen, if_pos h0, ihr]
    rw [harg]
    simp [followTrace]

/-- Every event the map-and-register tail emits is the `mmap` call, its
failure log, or the `cudaHostRegister` call. -/
theorem mapAndRegister_trace_events (env : mr.SharedEnv) :
    ∀ e ∈ (mr.shared_memory_resource.mapAndRegister env).2,
      e = mr.Event.mmap ∨ e = mr.Event.logError "mmap failed" ∨
        e = mr.Event.cudaHostRegister := by
  intro e he
  cases hm : env.mmapRet with
  | none =>
    simp only [mr.shared_memory_resource.mapAndRegister, hm, List.mem_cons,
      List.mem_singleton] at he
    tauto
  | some p =>
    cases hr : env.hostRegister <;>
      simp only [mr.shared_memory_resource.mapAndRegister, hm, hr, List.mem_cons,
        List.mem_singleton] at he <;> tauto

/-! The claim theorems. -/

/-- C1: for both resource variants and every execution context (and every
environment, rank and fuel), `do_allocate` with `bytes = 0` returns the null
address and performs no underlying allocator, OS or device call (empty trace). -/
theorem allocate_zero_bytes_is_noop :
    ∀ (s : mr.cuda_stream_view) (envP : mr.PinnedEnv) (envS : mr.SharedEnv)
      (rank : Int) (fuel : Nat),
      mr.pinned_memory_resource.do_allocate envP 0 s =
        (mr.AllocOutcome.retPtr none, []) ∧
      mr.shared_memory_resource.do_allocate envS rank 0 s fuel =
        (some (mr.AllocOutcome.retPtr none), []) := by
  intro s envP envS rank fuel
  constructor
  · simp [mr.pinned_memory_resource.do_allocate]
  · simp [mr.shared_memory_resource.do_allocate]

/-- C5: `is_equal` is structural equality by variant kind: it agrees with
`sameVariant` on every pair, so two pinned instances are equal, two shared
instances are equal irrespective of their ranks, and a pinned and a shared
instance are unequal in either order. -/
theorem is_equal_structural :
    ∀ (A B : mr.MemoryResource) (p q : mr.pinned_memory_resource) (r1 r2 : Int),
      mr.is_equal A B = mr.sameVariant A B ∧
      mr.is_equal (mr.MemoryResource.pinned p) (mr.MemoryResource.pinned q) = true ∧
      mr.is_equal (mr.MemoryResource.shared ⟨r1⟩) (mr.MemoryResource.shared ⟨r2⟩) = true ∧
      mr.is_equal (mr.MemoryResource.pinned p) (mr.MemoryResource.shared ⟨r1⟩) = false ∧
      mr.is_equal (mr.MemoryResource.shared ⟨r1⟩) (mr.MemoryResource.pinned p) = false := by
  intro A B p q r1 r2
  refine ⟨?_, rfl, rfl, rfl, rfl⟩
  cases A <;> cases B <;> rfl

/-- C6: the two capability queries are fixed constants on every instance of
either variant: `supports_streams` (support for non-default execution
contexts) is `false` and `supports_get_mem_info` (support for memory-info
queries) is `true`; being total `Bool`-valued functions they have no failure
mode. -/
theorem capability_flags_fixed :
    ∀ (p : mr.pinned_memory_resource) (sh : mr.shared_memory_resource),
      mr.pinned_memory_resource.supports_streams p = false ∧
      mr.pinned_memory_resource.supports_get_mem_info p = true ∧
      mr.shared_memory_resource.supports_streams sh = false ∧
      mr.shared_memory_resource.supports_get_mem_info sh = true := by
  intro p sh
  exact ⟨rfl, rfl, rfl, rfl⟩

/-- C9: the two `do_get_mem_info` implementations are extensionally equal,
both delegate to the single `cudaMemGetInfo` oracle, return the `(free,
total)` pair it reports when it succeeds, and throw a query failure exactly
when it fails. -/
theorem get_mem_info_identical :
    ∀ (env : mr.MemInfoEnv) (s : mr.cuda_stream_view),
      mr.pinned_memory_resource.do_get_mem_info env s =
        mr.shared_memory_resource.do_get_mem_info env s ∧
      (∀ f t, env.memGetInfo = some (f, t) →
        mr.pinned_memory_resource.do_get_mem_info env s = mr.MemInfoOutcome.ret f t) ∧
      (mr.pinned_memory_resource.do_get_mem_info env s =
          mr.MemInfoOutcome.throwCudaError ↔ env.memGetInfo = none) := by
  intro env s
  refine ⟨rfl, ?_, ?_⟩
  · intro f t h
    simp [mr.pinned_memory_resource.do_get_mem_info, h]
  · cases h : env.memGetInfo with
    | none => simp [mr.pinned_memory_resource.do_get_mem_info, h]
    | some ft =>
      obtain ⟨f, t⟩ := ft
      simp [mr.pinned_memory_resource.do_get_mem_info, h]

/-! Concrete environments used to evaluate the embedded code at specific
inputs. -/

/-- A concrete execution context. -/
def sview0 : mr.cuda_stream_view := ⟨0⟩

/-- Leader-side environment in which every OS and device call succeeds:
`shm_open` returns descriptor 3, `ftruncate` returns 0 (success), `mmap`
returns address 4096, `cudaHostRegister` succeeds. -/
def sEnvLeaderOk : mr.SharedEnv :=
  ⟨3, 0, fun _ => -1, some 4096, mr.cudaError_t.cudaSuccess⟩

/-- Leader-side environment identical to `sEnvLeaderOk` except that
`ftruncate` fails (returns -1). -/
def sEnvLeaderFtFail : mr.SharedEnv :=
  ⟨3, -1, fun _ => -1, some 4096, mr.cudaError_t.cudaSuccess⟩

/-- Follower-side environment: the very first `shm_open` attempt succeeds
with descriptor 3, `mmap` returns address 2048, registration succeeds. -/
def sEnvFollower : mr.SharedEnv :=
  ⟨-1, -1, fun n => if n = 0 then 3 else -1, some 2048, mr.cudaError_t.cudaSuccess⟩

/-- Deallocation environment: unregistration succeeds, `munmap` and
`shm_unlink` report success (0). -/
def dEnvA : mr.DeallocEnv := ⟨mr.cudaError_t.cudaSuccess, 0, 0⟩

/-- Deallocation environment: unregistration succeeds, `munmap` and
`shm_unlink` report failure (-1). -/
def dEnvB : mr.DeallocEnv := ⟨mr.cudaError_t.cudaSuccess, -1, -1⟩

/-- Pinned environment in which `cudaMallocHost` fails. -/
def pEnvFail : mr.PinnedEnv := ⟨none⟩

/-- C2 (code bug exhibit): on the rank-0 path with `bytes = 4096`, when
`shm_open` succeeds (fd 3) and `ftruncate` succeeds (returns 0), the code logs
"ftruncate failed" and returns the null address without ever calling `mmap`;
and when `ftruncate` actually fails (returns -1), the code proceeds to `mmap`
and `cudaHostRegister` with no log and no null return.  The source's test
`if (ftruncate(fd, bytes) == 0)` is inverted relative to its own log message. -/
theorem ftruncate_check_inverted :
    mr.shared_memory_resource.do_allocate sEnvLeaderOk 0 4096 sview0 1 =
      (some (mr.AllocOutcome.retPtr none),
        [mr.Event.shmOpenCreate, mr.Event.ftruncate,
          mr.Event.logError "ftruncate failed"]) ∧
    mr.Event.mmap ∉
      (mr.shared_memory_resource.do_allocate sEnvLeaderOk 0 4096 sview0 1).2 ∧
    mr.shared_memory_resource.do_allocate sEnvLeaderFtFail 0 4096 sview0 1 =
      (some (mr.AllocOutcome.retPtr (some 4096)),
        [mr.Event.shmOpenCreate, mr.Event.ftruncate, mr.Event.mmap,
          mr.Event.cudaHostRegister]) := by
  refine ⟨by decide, by decide, by decide⟩

/-- C3: in every run of the shared strategy's `do_allocate`, a participant
with nonzero rank never performs the creating `shm_open` and never performs
`ftruncate`; equivalently, only the rank-0 participant ever creates and sizes
the named segment. -/
theorem shared_only_rank0_creates :
    ∀ (env : mr.SharedEnv) (bytes : Nat) (s : mr.cuda_stream_view) (fuel : Nat)
      (rank : Int), rank ≠ 0 →
      mr.Event.shmOpenCreate ∉
        (mr.shared_memory_resource.do_allocate env rank bytes s fuel).2 ∧
      mr.Event.ftruncate ∉
        (mr.shared_memory_resource.do_allocate env rank bytes s fuel).2 := by
  intro env bytes s fuel rank hr
  by_cases hb : bytes = 0
  · simp [mr.shared_memory_resource.do_allocate, hb]
  · constructor <;>
    · intro hmem
      simp only [mr.shared_memory_resource.do_allocate, if_neg hb, if_neg hr] at hmem
      cases hw : (mr.shared_memory_resource.waitOpen env.shmOpenAttempt 0 fuel).1 with
      | none =>
        simp only [hw] at hmem
        rcases waitOpen_trace_events env.shmOpenAttempt fuel 0 _ hmem with h | h <;>
          simp at h
      | some x =>
        simp only [hw, List.mem_append] at hmem
        rcases hmem with hmem | hmem
        · rcases waitOpen_trace_events env.shmOpenAttempt fuel 0 _ hmem with h | h <;>
            simp at h
        · rcases mapAndRegister_trace_events env _ hmem with h | h | h <;> simp at h

/-- C4: for a participant with nonzero rank and nonzero bytes, `do_allocate`
is the wait loop followed by the map-and-register tail: if no `shm_open`
attempt ever succeeds the call yields no result for any fuel (it never
returns); and if attempt `k` is the first to succeed, then for any fuel above
`k` the call performs exactly `k + 1` sleep(100 ms)-then-open iterations and
then proceeds with the mapped segment. -/
theorem shared_follower_wait_loop :
    ∀ (env : mr.SharedEnv) (rank : Int) (bytes : Nat) (s : mr.cuda_stream_view),
      bytes ≠ 0 → rank ≠ 0 →
      ((∀ n, env.shmOpenAttempt n = -1) →
        ∀ fuel, (mr.shared_memory_resource.do_allocate env rank bytes s fuel).1 = none) ∧
      (∀ k, env.shmOpenAttempt k ≠ -1 →
        (∀ j, j < k → env.shmOpenAttempt j = -1) →
        ∀ fuel, k + 1 ≤ fuel →
          mr.shared_memory_resource.do_allocate env rank bytes s fuel =
            (some (mr.shared_memory_resource.mapAndRegister env).1,
              followTrace (k + 1) ++
                (mr.shared_memory_resource.mapAndRegister env).2)) := by
  intro env rank bytes s hb hr
  constructor
  · intro hall fuel
    have hw := waitOpen_never env.shmOpenAttempt hall fuel 0
    simp [mr.shared_memory_resource.do_allocate, if_neg hb, if_neg hr, hw]
  · intro k hk hlt fuel hle
    have hw := waitOpen_first_success env.shmOpenAttempt k 0 fuel
      (by simpa using hk) (by simpa using hlt) hle
    simp only [Nat.zero_add] at hw
    simp [mr.shared_memory_resource.do_allocate, if_neg hb, if_neg hr, hw]

/-- C7: the shared strategy's `do_deallocate` begins with `cudaHostUnregister`
(its first event), terminates fatally exactly when unregistration fails (and
then performs nothing further), otherwise continues with `munmap`, and
performs `shm_unlink` if and only if unregistration succeeded and the
participant's rank is 0. -/
theorem shared_dealloc_order_and_unlink :
    ∀ (env : mr.DeallocEnv) (rank : Int) (p : Option mr.Addr) (bytes : Nat)
      (s : mr.cuda_stream_view),
      ((mr.shared_memory_resource.do_deallocate env rank p bytes s).2).head? =
        some mr.Event.cudaHostUnregister ∧
      ((mr.shared_memory_resource.do_deallocate env rank p bytes s).1 =
          mr.DeallocOutcome.fatal ↔
        env.hostUnregister ≠ mr.cudaError_t.cudaSuccess) ∧
      (env.hostUnregister = mr.cudaError_t.cudaSuccess →
        (mr.shared_memory_resource.do_deallocate env rank p bytes s).2 =
          mr.Event.cudaHostUnregister :: mr.Event.munmap ::
            (if rank = 0 then [mr.Event.shmUnlink] else [])) ∧
      (mr.Event.shmUnlink ∈
          (mr.shared_memory_resource.do_deallocate env rank p bytes s).2 ↔
        env.hostUnregister = mr.cudaError_t.cudaSuccess ∧ rank = 0) := by
  intro env rank p bytes s
  cases h : env.hostUnregister <;> by_cases hr : rank = 0 <;>
    simp [mr.shared_memory_resource.do_deallocate, h, hr]

/-- C10: the shared strategy's `do_deallocate` discards the results of
`munmap` and `shm_unlink`: its outcome and trace depend only on the
`cudaHostUnregister` result, and whenever unregistration succeeds the call
completes normally for every rank and every outcome of the two OS calls. -/
theorem shared_dealloc_discards_os_results :
    ∀ (rank : Int) (p : Option mr.Addr) (bytes : Nat) (s : mr.cuda_stream_view)
      (envA envB : mr.DeallocEnv),
      envA.hostUnregister = envB.hostUnregister →
      mr.shared_memory_resource.do_deallocate envA rank p bytes s =
        mr.shared_memory_resource.do_deallocate envB rank p bytes s ∧
      (envA.hostUnregister = mr.cudaError_t.cudaSuccess →
        (mr.shared_memory_resource.do_deallocate envA rank p bytes s).1 =
          mr.DeallocOutcome.done) := by
  intro rank p bytes s envA envB h
  constructor
  · simp only [mr.shared_memory_resource.do_deallocate, h]
  · intro hs
    by_cases hr : rank = 0 <;>
      simp [mr.shared_memory_resource.do_deallocate, hs, hr]

/-- C8: for nonzero bytes, allocation fails with `rmm::bad_alloc` exactly when
the underlying device call cannot satisfy the request: the pinned variant
throws iff `cudaMallocHost` fails and otherwise returns the allocated address;
in the shared variant, a `cudaHostRegister` failure on a successfully mapped
region is raised as `rmm::bad_alloc`, and every completed shared allocation
either returned null before mapping or is exactly the map-and-register
outcome. -/
theorem allocation_failure_matches_device_failure :
    ∀ (bytes : Nat) (s : mr.cuda_stream_view), bytes ≠ 0 →
      (∀ envP : mr.PinnedEnv,
        ((mr.pinned_memory_resource.do_allocate envP bytes s).1 =
            mr.AllocOutcome.throwBadAlloc ↔ envP.mallocHost = none) ∧
        (∀ p, envP.mallocHost = some p →
          (mr.pinned_memory_resource.do_allocate envP bytes s).1 =
            mr.AllocOutcome.retPtr (some p))) ∧
      (∀ (envS : mr.SharedEnv) (p : mr.Addr), envS.mmapRet = some p →
        envS.hostRegister = mr.cudaError_t.cudaErrorOther →
        (mr.shared_memory_resource.mapAndRegister envS).1 =
          mr.AllocOutcome.throwBadAlloc) ∧
      (∀ (envS : mr.SharedEnv) (rank : Int) (fuel : Nat) (r : mr.AllocOutcome),
        (mr.shared_memory_resource.do_allocate envS rank bytes s fuel).1 = some r →
        r = mr.AllocOutcome.retPtr none ∨
          r = (mr.shared_memory_resource.mapAndRegister envS).1) := by
  intro bytes s hb
  refine ⟨?_, ?_, ?_⟩
  · intro envP
    constructor
    · cases h : envP.mallocHost <;>
        simp [mr.pinned_memory_resource.do_allocate, hb, h]
    · intro p h
      simp [mr.pinned_memory_resource.do_allocate, hb, h]
  · intro envS p hm hreg
    simp [mr.shared_memory_resource.mapAndRegister, hm, hreg]
  · intro envS rank fuel r h
    by_cases hr0 : rank = 0
    · simp only [mr.shared_memory_resource.do_allocate, if_neg hb, if_pos hr0] at h
      by_cases h1 : envS.shmOpenCreate = -1
      · rw [if_pos h1] at h
        simp only [Option.some.injEq] at h
        exact Or.inl h.symm
      · rw [if_neg h1] at h
        by_cases h2 : envS.ftruncateRet = 0
        · rw [if_pos h2] at h
          simp only [Option.some.injEq] at h
          exact Or.inl h.symm
        · rw [if_neg h2] at h
          simp only [Option.some.injEq] at h
          exact Or.inr h.symm
    · simp only [mr.shared_memory_resource.do_allocate, if_neg hb, if_neg hr0] at h
      cases hw : (mr.shared_memory_resource.waitOpen envS.shmOpenAttempt 0 fuel).1 with
      | none => simp [hw] at h
      | some x =>
        simp only [hw, Option.some.injEq] at h
        exact Or.inr h.symm

/-! Witnesses: each hypothesis-bearing claim theorem applied at a concrete
input, with the hypotheses discharged there. -/

/-- Witness for C3 at rank 1, 4096 bytes, fuel 2. -/
theorem shared_only_rank0_creates_witness :
    mr.Event.shmOpenCreate ∉
      (mr.shared_memory_resource.do_allocate sEnvFollower 1 4096 sview0 2).2 ∧
    mr.Event.ftruncate ∉
      (mr.shared_memory_resource.do_allocate sEnvFollower 1 4096 sview0 2).2 :=
  shared_only_rank0_creates sEnvFollower 4096 sview0 2 1 (by decide)

/-- Witness for C4 at rank 1, 4096 bytes, first attempt succeeding, fuel 1. -/
theorem shared_follower_wait_loop_witness :
    mr.shared_memory_resource.do_allocate sEnvFollower 1 4096 sview0 1 =
      (some (mr.shared_memory_resource.mapAndRegister sEnvFollower).1,
        followTrace 1 ++ (mr.shared_memory_resource.mapAndRegister sEnvFollower).2) :=
  (shared_follower_wait_loop sEnvFollower 1 4096 sview0 (by decide) (by decide)).2
    0 (by decide) (fun j hj => (Nat.not_lt_zero j hj).elim) 1 (by decide)

/-- Witness for C8 at 4096 bytes and a failing `cudaMallocHost`. -/
theorem allocation_failure_matches_device_failure_witness :
    (mr.pinned_memory_resource.do_allocate pEnvFail 4096 sview0).1 =
        mr.AllocOutcome.throwBadAlloc ↔ pEnvFail.mallocHost = none :=
  ((allocation_failure_matches_device_failure 4096 sview0 (by decide)).1 pEnvFail).1

/-- Witness for C10 at rank 0 with two environments that differ only in the
discarded `munmap` and `shm_unlink` results. -/
theorem shared_dealloc_discards_os_results_witness :
    mr.shared_memory_resource.do_deallocate dEnvA 0 (some 1000) 4096 sview0 =
      mr.shared_memory_resource.do_deallocate dEnvB 0 (some 1000) 4096 sview0 ∧
    (dEnvA.hostUnregister = mr.cudaError_t.cudaSuccess →
      (mr.shared_memory_resource.do_deallocate dEnvA 0 (some 1000) 4096 sview0).1 =
        mr.DeallocOutcome.done) :=
  shared_dealloc_discards_os_results 0 (some 1000) 4096 sview0 dEnvA dEnvB (by decide)

end mr

end rmm
